import Mathlib

/-!
# Verification of the auto-zhipin Discovery Engine and Evaluation Pipeline

A shallow embedding of the core of the `auto_zhipin` repository:

* `db.py` — the persisted entities (`Cookie`, `JobDetail`, `JobEvaluation`)
  and the cookie-store operations `overwrite_all` / `fetch_all`;
* `boss_zhipin.py` — the raw listing/detail models, `default_job_filter`,
  `_build_job_detail`, the `login` flow, and the `seek_jobs` discovery loop;
* `__main__.py` — the unevaluated-record selection query and the
  bounded-queue evaluation pipeline (`Logic.evaluate` / `Logic._evaluator`);
* `evaluator.py` — `evaluate_job`.

Machine integers do not occur (Python ints are unbounded); timestamps are
modelled as `Nat`, SQL `Decimal` scores as `Int`, optional columns as
`Option`.  Stateful/asynchronous code is embedded as explicit state passing
(`seek_jobs`) or as a step relation driven by an action schedule (the
evaluation pipeline), with network-response arrival supplied by an explicit
schedule.  Fallible code returns `Except`.
-/

namespace AutoZhipin

/-! ## Data model (`db.py`) -/

/-- `Cookie.same_site` column: `Literal["Lax", "None", "Strict"]`. -/
inductive SameSite where
  | lax
  | strict
  | noneValue
deriving DecidableEq, Repr

/-- ORM entity `Cookie` (`db.py`).  Primary key: `(name, domain, path)`.
The `TimeMixin` columns are irrelevant to the cookie claims and omitted;
`expires : Decimal` is modelled as `Rat`. -/
structure Cookie where
  name : String
  value : String
  domain : Option String
  path : Option String
  expires : Option Rat
  http_only : Option Bool
  secure : Option Bool
  same_site : Option SameSite
  partition_key : Option String
deriving DecidableEq, Repr

/-- The composite primary key `(name, domain, path)` of a `Cookie` row. -/
def Cookie.key (c : Cookie) : String × Option String × Option String :=
  (c.name, c.domain, c.path)

/-- ORM entity `JobDetail` (`db.py`), the persisted `NormalizedRecord`.
Primary key: `job_encrypt_id`.  `created_at` comes from `TimeMixin`
(`updated_at` is never read by the code under verification and is omitted). -/
structure JobDetail where
  company_encrypt_brand_id : String
  company_brand_name : String
  company_stage_name : String
  company_scale_name : String
  company_industry_name : String
  company_introduce : String
  job_encrypt_id : String
  job_name : String
  job_city_name : String
  job_area_district : String
  job_business_district : String
  job_address : String
  job_experience_name : String
  job_degree : String
  job_salary_description : String
  job_description : String
  created_at : Nat
deriving DecidableEq, Repr

/-- ORM entity `JobEvaluation` (`db.py`), the persisted `ScoreResult`.
Primary key: `job_encrypt_id`; six `(score, reason)` dimension pairs
(`Decimal` scores modelled as `Int`). -/
structure JobEvaluation where
  job_encrypt_id : String
  technology_match_score : Int
  technology_match_reason : String
  project_experience_match_score : Int
  project_experience_match_reason : String
  industry_experience_match_score : Int
  industry_experience_match_reason : String
  level_match_score : Int
  level_match_reason : String
  growth_potential_score : Int
  growth_potential_reason : String
  technical_depth_potential_score : Int
  technical_depth_potential_reason : String
deriving DecidableEq, Repr

/-! ## Cookie store (`Cookie.overwrite_all` / `Cookie.fetch_all`, `db.py`)

A `cookie` table is a list of rows.  Inserting a row whose primary key
`(name, domain, path)` is already present violates the primary-key
constraint, which `session.flush` would surface as an error. -/

inductive DbError where
  | uniqueViolation
deriving DecidableEq, Repr

/-- One `INSERT` into the `cookie` table, enforcing the primary key. -/
def Cookie.insertRow (table : List Cookie) (c : Cookie) :
    Except DbError (List Cookie) :=
  if table.any (fun r => decide (r.key = c.key)) then
    .error .uniqueViolation
  else
    .ok (table ++ [c])

/-- `Cookie.overwrite_all(session, cookies)` (`db.py` lines 161-171):
`DELETE FROM cookie` followed by `add_all` + `flush`, i.e. delete every
existing row and insert the given rows, whatever the prior contents were. -/
def Cookie.overwrite_all (table : List Cookie) (cookies : List Cookie) :
    Except DbError (List Cookie) :=
  -- `session.execute(sa.delete(cls))` empties the table ...
  let emptied : List Cookie := (fun _ => []) table
  -- ... then `session.add_all(cookies); session.flush(cookies)` inserts each row
  cookies.foldlM Cookie.insertRow emptied

/-- `Cookie.fetch_all(session)` (`db.py` lines 173-179): `SELECT * FROM cookie`. -/
def Cookie.fetch_all (table : List Cookie) : List Cookie :=
  table

/-! ## Unevaluated-record selection (`Logic.evaluate`, `__main__.py` lines 61-78)

The SQLAlchemy query
`select(JobDetail).join(JobEvaluation, JobDetail.job_encrypt_id ==
JobEvaluation.job_encrypt_id, isouter=True).where(JobEvaluation.job_encrypt_id
.is_(None)).order_by(JobDetail.created_at.asc()).limit(job_count)`
is embedded clause by clause: a LEFT OUTER JOIN, the IS NULL filter,
ORDER BY created_at ascending, and LIMIT. -/

/-- `LEFT OUTER JOIN` of `job_detail` with `job_evaluation` on
`job_encrypt_id`: each job row is paired with every matching evaluation row,
or with `none` if no evaluation matches. -/
def leftOuterJoin (jobs : List JobDetail) (evals : List JobEvaluation) :
    List (JobDetail × Option JobEvaluation) :=
  (jobs.map fun j =>
    match evals.filter (fun e => e.job_encrypt_id == j.job_encrypt_id) with
    | [] => [(j, none)]
    | ms => ms.map (fun e => (j, some e))).flatten

/-- `ORDER BY job_detail.created_at ASC`. -/
def createdLE (a b : JobDetail) : Prop :=
  a.created_at ≤ b.created_at

instance : DecidableRel createdLE := fun a b => Nat.decLe a.created_at b.created_at

instance : IsTotal JobDetail createdLE := ⟨fun a b => Nat.le_total a.created_at b.created_at⟩

instance : IsTrans JobDetail createdLE := ⟨fun _ _ _ h h' => Nat.le_trans h h'⟩

/-- Rows sorted by `created_at` ascending. -/
def orderByCreatedAsc (rows : List JobDetail) : List JobDetail :=
  rows.insertionSort createdLE

/-- The full unevaluated-record selection of `Logic.evaluate`
(`__main__.py` lines 61-78). -/
def select_unevaluated (jobs : List JobDetail) (evals : List JobEvaluation)
    (limit : Nat) : List JobDetail :=
  (orderByCreatedAsc
    (((leftOuterJoin jobs evals).filter (fun p => p.2.isNone)).map Prod.fst)).take limit

/-- The selection as the spec words it: the jobs with no matching evaluation
(left-anti-join on `itemId`), oldest-created-first, capped at `limit`.
Stated from the spec, to be compared with `select_unevaluated`. -/
def select_unevaluated_spec (jobs : List JobDetail) (evals : List JobEvaluation)
    (limit : Nat) : List JobDetail :=
  (orderByCreatedAsc
    (jobs.filter (fun j => !(evals.any (fun e => e.job_encrypt_id == j.job_encrypt_id))))).take limit

/-! ## Raw listing models (`boss_zhipin.py`)

The two partial views of one posting: `RawJobSummary` (a `ListingSummary`,
from list-page responses) and `RawJobDetail` (a `ListingDetail`, from
detail responses), both keyed by the opaque encrypted job id. -/

/-- `RawJobInfo` (`boss_zhipin.py` lines 27-38). -/
structure RawJobInfo where
  encrypt_id : String
  job_name : String
  position_name : String
  location_name : String
  experience_name : String
  degree_name : String
  salary_desc : String
  post_description : String
  address : String
  show_skills : List String
  job_status_desc : String
deriving DecidableEq, Repr

/-- `RawBossInfo` (`boss_zhipin.py` lines 41-45). -/
structure RawBossInfo where
  name : String
  title : String
  active_time_desc : String
  brand_name : String
deriving DecidableEq, Repr

/-- `RawBrandComInfo` (`boss_zhipin.py` lines 48-57). -/
structure RawBrandComInfo where
  encrypt_brand_id : String
  brand_name : String
  stage_name : String
  scale_name : String
  industry_name : String
  introduce : String
  labels : List String
  customer_brand_name : String
  customer_brand_stage_name : String
deriving DecidableEq, Repr

/-- `RawJobDetail` (`boss_zhipin.py` lines 60-64), the `ListingDetail`. -/
structure RawJobDetail where
  security_id : String
  job_info : RawJobInfo
  boss_info : RawBossInfo
  brand_com_info : RawBrandComInfo
deriving DecidableEq, Repr

/-- `RawJobSummary` (`boss_zhipin.py` lines 428-446), the `ListingSummary`. -/
structure RawJobSummary where
  security_id : String
  boss_name : String
  boss_title : String
  encrypt_job_id : String
  job_name : String
  salary_desc : String
  job_labels : List String
  skills : List String
  job_experience : String
  job_degree : String
  city_name : String
  area_district : String
  business_district : String
  encrypt_brand_id : String
  brand_name : String
  brand_stage_name : String
  brand_industry : String
  brand_scale_name : String
deriving DecidableEq, Repr

/-! ## `default_job_filter` (`boss_zhipin.py` lines 67-69)

`return not set(job.boss_info.active_time_desc) & {"周月年"}`.
In Python, `set(s)` on a string is the set of its individual characters
(each a one-character string), while `{"周月年"}` is a one-element set
containing the three-character string.  Both are sets of Python strings;
the embedding therefore represents each character as a one-character
`String` and intersects the two `String` lists. -/

/-- `set(s)` on a Python string: its characters, as one-character strings
(list representation; only emptiness of intersections is observed). -/
def charSingletons (s : String) : List String :=
  s.data.map (fun c => String.mk [c])

/-- `default_job_filter` (`boss_zhipin.py` lines 67-69): `not` of the
truthiness of the intersection (a set is truthy iff non-empty). -/
def default_job_filter (job : RawJobDetail) : Bool :=
  -- 过滤BOSS活跃状态
  !(!((charSingletons job.boss_info.active_time_desc).inter ["周月年"]).isEmpty)

/-! ## `_build_job_detail` (`boss_zhipin.py` lines 386-405)

Merging a `RawJobSummary` with its matching `RawJobDetail` into the
persisted `JobDetail`.  The ORM defaults `created_at` to the current time
(`TimeMixin.default_factory`), passed here explicitly as `now`. -/

/-- `BossZhipin._build_job_detail` (`boss_zhipin.py` lines 386-405). -/
def build_job_detail (now : Nat) (job_summary : RawJobSummary)
    (job_detail : RawJobDetail) : JobDetail where
  company_encrypt_brand_id := job_detail.brand_com_info.encrypt_brand_id
  company_brand_name := job_detail.brand_com_info.brand_name
  company_stage_name := job_detail.brand_com_info.stage_name
  company_scale_name := job_detail.brand_com_info.scale_name
  company_industry_name := job_detail.brand_com_info.industry_name
  company_introduce := job_detail.brand_com_info.introduce
  job_encrypt_id := job_detail.job_info.encrypt_id
  job_name := job_detail.job_info.job_name
  job_city_name := job_summary.city_name
  job_area_district := job_summary.area_district
  job_business_district := job_summary.business_district
  job_address := job_detail.job_info.address
  job_experience_name := job_detail.job_info.experience_name
  job_degree := job_detail.job_info.degree_name
  job_salary_description := job_detail.job_info.salary_desc
  job_description := job_detail.job_info.post_description
  created_at := now

/-! ### Field-level view of the merge (for the correlation claim)

To talk about "the fields of" a record independently of record types, each
record is flattened to a list of `(field name, field value)` pairs; values
are strings or lists of strings. -/

/-- A field value: either a text field or a list-of-text field. -/
inductive FieldVal where
  | s (v : String)
  | ls (v : List String)
deriving DecidableEq, Repr

/-- All fields carried by a `RawJobSummary`. -/
def RawJobSummary.fields (x : RawJobSummary) : List (String × FieldVal) :=
  [("security_id", .s x.security_id),
   ("boss_name", .s x.boss_name),
   ("boss_title", .s x.boss_title),
   ("encrypt_job_id", .s x.encrypt_job_id),
   ("job_name", .s x.job_name),
   ("salary_desc", .s x.salary_desc),
   ("job_labels", .ls x.job_labels),
   ("skills", .ls x.skills),
   ("job_experience", .s x.job_experience),
   ("job_degree", .s x.job_degree),
   ("city_name", .s x.city_name),
   ("area_district", .s x.area_district),
   ("business_district", .s x.business_district),
   ("encrypt_brand_id", .s x.encrypt_brand_id),
   ("brand_name", .s x.brand_name),
   ("brand_stage_name", .s x.brand_stage_name),
   ("brand_industry", .s x.brand_industry),
   ("brand_scale_name", .s x.brand_scale_name)]

/-- All fields carried by a `RawJobDetail` (flattening its sub-objects). -/
def RawJobDetail.fields (x : RawJobDetail) : List (String × FieldVal) :=
  [("security_id", .s x.security_id),
   ("job_info.encrypt_id", .s x.job_info.encrypt_id),
   ("job_info.job_name", .s x.job_info.job_name),
   ("job_info.position_name", .s x.job_info.position_name),
   ("job_info.location_name", .s x.job_info.location_name),
   ("job_info.experience_name", .s x.job_info.experience_name),
   ("job_info.degree_name", .s x.job_info.degree_name),
   ("job_info.salary_desc", .s x.job_info.salary_desc),
   ("job_info.post_description", .s x.job_info.post_description),
   ("job_info.address", .s x.job_info.address),
   ("job_info.show_skills", .ls x.job_info.show_skills),
   ("job_info.job_status_desc", .s x.job_info.job_status_desc),
   ("boss_info.name", .s x.boss_info.name),
   ("boss_info.title", .s x.boss_info.title),
   ("boss_info.active_time_desc", .s x.boss_info.active_time_desc),
   ("boss_info.brand_name", .s x.boss_info.brand_name),
   ("brand_com_info.encrypt_brand_id", .s x.brand_com_info.encrypt_brand_id),
   ("brand_com_info.brand_name", .s x.brand_com_info.brand_name),
   ("brand_com_info.stage_name", .s x.brand_com_info.stage_name),
   ("brand_com_info.scale_name", .s x.brand_com_info.scale_name),
   ("brand_com_info.industry_name", .s x.brand_com_info.industry_name),
   ("brand_com_info.introduce", .s x.brand_com_info.introduce),
   ("brand_com_info.labels", .ls x.brand_com_info.labels),
   ("brand_com_info.customer_brand_name", .s x.brand_com_info.customer_brand_name),
   ("brand_com_info.customer_brand_stage_name", .s x.brand_com_info.customer_brand_stage_name)]

/-- The payload field values of a merged `JobDetail` (the sixteen content
columns; the bookkeeping timestamp is not a carried field). -/
def JobDetail.fieldVals (j : JobDetail) : List FieldVal :=
  [.s j.company_encrypt_brand_id,
   .s j.company_brand_name,
   .s j.company_stage_name,
   .s j.company_scale_name,
   .s j.company_industry_name,
   .s j.company_introduce,
   .s j.job_encrypt_id,
   .s j.job_name,
   .s j.job_city_name,
   .s j.job_area_district,
   .s j.job_business_district,
   .s j.job_address,
   .s j.job_experience_name,
   .s j.job_degree,
   .s j.job_salary_description,
   .s j.job_description]

/-! ## The discovery loop `seek_jobs` (`boss_zhipin.py` lines 230-299)

`seek_jobs` drives a live page.  The `on_request_finished` handler runs at
the loop's suspension points (`await`s) whenever an intercepted response
completes; whether a given response has been delivered before a given point
of the loop body is decided by network timing, not by the code.  The
embedding therefore threads an explicit *schedule*: `schedule i` is the
list of responses the handler has delivered during iteration `i`'s awaits
before the loop body reads `job_detail_list[-1]`.  Everything else is the
literal loop body: wait for the loading indicator, re-read the rendered
list, click the item at the cursor, *immediately* advance the cursor
(`job_list_ix += 1`), read `job_detail_list[-1]`, filter, join with the
summary map, yield.  The loop guard is `queried_count < count`; `fuel`
bounds how many iterations are observed (the generator is consumed lazily). -/

/-- An intercepted response, as handled by `on_request_finished`:
a list-page response (a batch of summaries) or a detail response. -/
inductive NetEvent where
  | listResp (batch : List RawJobSummary)
  | detailResp (d : RawJobDetail)
deriving DecidableEq, Repr

/-- The mutable state of one `seek_jobs` run: the summary map
`encrypt_job_id_to_job_summary` (association list, latest wins), the list
`job_detail_list`, the cursor `job_list_ix`, the counter `queried_count`,
and the records yielded so far. -/
structure SeekState where
  summaries : List (String × RawJobSummary)
  details : List RawJobDetail
  ix : Nat
  queried : Nat
  yielded : List JobDetail
deriving DecidableEq, Repr

/-- `encrypt_job_id_to_job_summary[job_summary.encrypt_job_id] = job_summary`:
dict assignment, overwriting an existing key or appending a new one. -/
def upsertSummary (m : List (String × RawJobSummary)) (js : RawJobSummary) :
    List (String × RawJobSummary) :=
  if m.any (fun kv => kv.1 == js.encrypt_job_id) then
    m.map (fun kv => if kv.1 == js.encrypt_job_id then (kv.1, js) else kv)
  else
    m ++ [(js.encrypt_job_id, js)]

/-- Dict lookup `encrypt_job_id_to_job_summary[k]` (as an `Option`;
a missing key is a Python `KeyError`). -/
def lookupSummary (m : List (String × RawJobSummary)) (k : String) :
    Option RawJobSummary :=
  (m.find? (fun kv => kv.1 == k)).map Prod.snd

/-- One run of the `on_request_finished` handler
(`boss_zhipin.py` lines 243-256). -/
def deliver (st : SeekState) : NetEvent → SeekState
  | .listResp batch => { st with summaries := batch.foldl upsertSummary st.summaries }
  | .detailResp d => { st with details := st.details ++ [d] }

/-- The detail payloads among a list of events, in delivery order. -/
def detailEvents : List NetEvent → List RawJobDetail
  | [] => []
  | .listResp _ :: rest => detailEvents rest
  | .detailResp d :: rest => d :: detailEvents rest

/-- The exceptions the loop body can raise: `job_detail_list[-1]` on an
empty list (`IndexError`) and a missing summary key (`KeyError`). -/
inductive SeekError where
  | detailIndexError
  | summaryKeyError
deriving DecidableEq, Repr

/-- The tail of the loop body, from the read of `job_detail_list[-1]`
(`boss_zhipin.py` lines 290-297): take the most recently completed detail
response, apply the filter, join with the summary carrying the detail's
`encrypt_id` (a missing key is a fatal `KeyError`), and yield the merged
record.  `now` is the clock value the ORM uses for `created_at`. -/
def seekRead (filterF : RawJobDetail → Bool) (now : Nat) (st : SeekState) :
    Except SeekError SeekState :=
  -- `job_detail = job_detail_list[-1]`
  match st.details.getLast? with
  | none => .error .detailIndexError
  | some job_detail =>
    if filterF job_detail then
      match lookupSummary st.summaries job_detail.job_info.encrypt_id with
      | none => .error .summaryKeyError
      | some job_summary =>
        .ok { st with yielded := st.yielded ++ [build_job_detail now job_summary job_detail] }
    else
      .ok st

/-- One iteration of the `seek_jobs` loop body (`boss_zhipin.py` lines
276-299): deliver the scheduled responses, click the item at the cursor,
*immediately* advance the cursor (`job_list_ix += 1`, with no wait for the
detail response), then run the read/filter/join/yield tail. -/
def seekIteration (filterF : RawJobDetail → Bool) (now : Nat)
    (events : List NetEvent) (st : SeekState) : Except SeekError SeekState :=
  -- responses delivered at this iteration's awaits, before the read
  let st1 := events.foldl deliver st
  -- `await job_list[job_list_ix].click()` then `job_list_ix += 1` (立即更新 ix)
  seekRead filterF now { st1 with ix := st1.ix + 1 }

/-- The `while queried_count < count` loop of `seek_jobs`, observed for at
most `fuel` iterations; `i` is the iteration index (also used as the
clock).  The loop stops by itself only when the guard fails. -/
def seek_jobs_loop (filterF : RawJobDetail → Bool) (schedule : Nat → List NetEvent)
    (count : Nat) : Nat → Nat → SeekState → Except SeekError SeekState
  | 0, _, st => .ok st
  | fuel + 1, i, st =>
    if st.queried < count then
      match seekIteration filterF i (schedule i) st with
      | .error e => .error e
      | .ok st' => seek_jobs_loop filterF schedule count fuel (i + 1) st'
    else
      .ok st

/-- The state at loop entry: empty summary map, empty detail list,
`queried_count = 0`, `job_list_ix = 0`. -/
def initSeekState : SeekState :=
  { summaries := [], details := [], ix := 0, queried := 0, yielded := [] }

/-! ## The login flow (`BossZhipin.login`, `boss_zhipin.py` lines 144-199)

The browser's behaviour is an environment: the page URL observed after
navigating to the login URL with the `networkidle` wait policy, and the
outcome of the interactive `_wait_for_login` (whether the logged-in DOM
marker appeared within the timeout, and the cookies exported if it did). -/

/-- The `BossZhipinError` exceptions `login` can raise. -/
inductive BossZhipinError where
  | loginPageDisabled
  | loginTimeout
deriving DecidableEq, Repr

/-- What the automation surface does during `login`. -/
structure LoginEnv where
  /-- `page.url` after `goto(login_url, wait_until="networkidle")`. -/
  page_url_after_goto : String
  /-- whether `.nav-figure` became visible within the timeout. -/
  interactive_ok : Bool
  /-- the cookies `ctx.cookies()` exports after an interactive login. -/
  interactive_cookies : List Cookie
deriving DecidableEq, Repr

/-- The observable outcome of `login`: the returned cookies, and whether
the interactive path ran (a visible browser opened, the login wait done). -/
structure LoginOutcome where
  cookies : List Cookie
  opened_visible_browser : Bool
  waited_for_login : Bool
deriving DecidableEq, Repr

/-- `BossZhipin.login` (`boss_zhipin.py` lines 144-199).  Restores the
saved cookies, navigates to the login page, and returns them unchanged if
the page has redirected to the base URL; otherwise falls back to the
interactive flow (fails fast if showing a login page is disallowed; opens
a second visible browser iff the primary one is headless). -/
def login (base_url : String) (headless allow_to_show_login_page : Bool)
    (env : LoginEnv) (cookies : List Cookie) : Except BossZhipinError LoginOutcome :=
  -- 加载之前存下来的cookies, 前往登录页
  if env.page_url_after_goto = base_url then
    -- 若已登录，则跳转首页: return cookies unchanged, interactive flow never starts
    .ok { cookies := cookies, opened_visible_browser := false, waited_for_login := false }
  else if !allow_to_show_login_page then
    .error .loginPageDisabled
  else if env.interactive_ok then
    .ok { cookies := env.interactive_cookies,
          opened_visible_browser := headless,
          waited_for_login := true }
  else
    .error .loginTimeout

/-! ## `evaluate_job` (`evaluator.py` lines 181-246) -/

/-- The `Evaluation` TypedDict (`evaluator.py`, `total=False`: every key
optional), the validated LLM output. -/
structure Evaluation where
  technology_match_score : Option Int
  technology_match_reason : Option String
  project_experience_match_score : Option Int
  project_experience_match_reason : Option String
  industry_experience_match_score : Option Int
  industry_experience_match_reason : Option String
  level_match_score : Option Int
  level_match_reason : Option String
  growth_potential_score : Option Int
  growth_potential_reason : Option String
  technical_depth_potential_score : Option Int
  technical_depth_potential_reason : Option String
deriving DecidableEq, Repr

/-- `EvaluatorError` (`evaluator.py`). -/
inductive EvaluatorError where
  | noWellFormedResult
deriving DecidableEq, Repr

/-- `evaluate_job` (`evaluator.py` lines 181-246): the streamed LLM output
either ends with a validated `Evaluation` (`some`) or never produces one
(`none`, raising `EvaluatorError`).  On success the `JobEvaluation` is
keyed by the job's own `job_encrypt_id`, with each missing dict key
defaulted (`evaluation.get(key, default)`). -/
def evaluate_job (llm_output : Option Evaluation) (job : JobDetail) :
    Except EvaluatorError JobEvaluation :=
  match llm_output with
  | none => .error .noWellFormedResult
  | some ev => .ok
    { job_encrypt_id := job.job_encrypt_id
      technology_match_score := ev.technology_match_score.getD 0
      technology_match_reason := ev.technology_match_reason.getD ""
      project_experience_match_score := ev.project_experience_match_score.getD 0
      project_experience_match_reason := ev.project_experience_match_reason.getD ""
      industry_experience_match_score := ev.industry_experience_match_score.getD 0
      industry_experience_match_reason := ev.industry_experience_match_reason.getD ""
      level_match_score := ev.level_match_score.getD 0
      level_match_reason := ev.level_match_reason.getD ""
      growth_potential_score := ev.growth_potential_score.getD 0
      growth_potential_reason := ev.growth_potential_reason.getD ""
      technical_depth_potential_score := ev.technical_depth_potential_score.getD 0
      technical_depth_potential_reason := ev.technical_depth_potential_reason.getD "" }

/-! ## The evaluation pipeline (`Logic.evaluate` / `Logic._evaluator`,
`__main__.py` lines 80-125)

`evaluate` builds `asyncio.Queue(concurrency)`, spawns `concurrency`
worker tasks, `put`s every selected job, then `join`s the queue (which
completes once every `put` item has been `task_done`), cancels the
workers, and returns.  Each worker loops: `get` one job, score it with
`evaluate_job`, persist the `JobEvaluation` (a `session.merge`, i.e. an
upsert by primary key), and `task_done` in a `finally` block.

The cooperative interleaving is modelled as a labelled step relation
driven by an action list: `put` (the caller enqueues the next job if the
bounded queue has room), `get w` (idle worker `w` dequeues the head), and
`finish w` (worker `w` completes its scoring + persistence and calls
`task_done`).  `evaluate` returns exactly at a state where every job has
been enqueued and the queue's unfinished-task counter is zero — the
post-`join` cancellation does not touch the persisted results. -/

/-- `session.merge` for `JobEvaluation` (`JobEvaluation.save`, `db.py`
lines 236-239): upsert by the primary key `job_encrypt_id`. -/
def upsertEval (table : List JobEvaluation) (e : JobEvaluation) :
    List JobEvaluation :=
  if table.any (fun r => r.job_encrypt_id == e.job_encrypt_id) then
    table.map (fun r => if r.job_encrypt_id == e.job_encrypt_id then e else r)
  else
    table ++ [e]

/-- The shared state of one `Logic.evaluate` run: the caller's jobs not
yet `put`, the bounded queue's items, each worker's in-flight job
(`none` = idle), the persisted `job_evaluation` table, and the queue's
unfinished-task counter (incremented by `put`, decremented by
`task_done`; `join` completes when it reaches zero). -/
structure PipelineState where
  pending : List JobDetail
  queue : List JobDetail
  running : List (Option JobDetail)
  saved : List JobEvaluation
  unfinished : Nat
deriving DecidableEq, Repr

/-- A scheduling action of the pipeline. -/
inductive PAction where
  | put
  | get (w : Nat)
  | finish (w : Nat)
deriving DecidableEq, Repr

/-- One enabled step of the pipeline; `none` when the action is not
enabled in the given state (the corresponding coroutine is blocked).
`llm j` is the validated LLM output for job `j` (`none` = the scoring
stream never validates, so `evaluate_job` raises; the exception escapes
the worker loop, but `task_done` has already run in the `finally`). -/
def pstep (C : Nat) (llm : JobDetail → Option Evaluation) (st : PipelineState) :
    PAction → Option PipelineState
  | .put =>
    match st.pending with
    | [] => none
    | j :: rest =>
      -- `await job_queue.put(job)` blocks while the queue is full
      if st.queue.length < C then
        some { st with pending := rest, queue := st.queue ++ [j],
                       unfinished := st.unfinished + 1 }
      else none
  | .get w =>
    match st.queue with
    | [] => none
    | j :: rest =>
      -- `job = await job_queue.get()` on an idle worker
      if st.running.get? w = some none then
        some { st with queue := rest, running := st.running.set w (some j) }
      else none
  | .finish w =>
    match st.running.get? w with
    | some (some j) =>
      match evaluate_job (llm j) j with
      | .ok ev =>
        -- `JobEvaluation.save` (merge) then `task_done` in the `finally`
        some { st with running := st.running.set w none,
                       saved := upsertEval st.saved ev,
                       unfinished := st.unfinished - 1 }
      | .error _ =>
        -- scoring raised: nothing persisted, worker dies, but the
        -- `finally` still ran `task_done`
        some { st with running := st.running.set w none,
                       unfinished := st.unfinished - 1 }
    | _ => none

/-- Run the pipeline under an action schedule. -/
def prun (C : Nat) (llm : JobDetail → Option Evaluation) :
    List PAction → PipelineState → Option PipelineState
  | [], st => some st
  | a :: acts, st => (pstep C llm st a).bind (prun C llm acts)

/-- The state just after `evaluate` spawned its workers: all jobs pending,
queue empty, `C` idle workers, nothing persisted. -/
def pinit (batch : List JobDetail) (C : Nat) : PipelineState :=
  { pending := batch, queue := [], running := List.replicate C none,
    saved := [], unfinished := 0 }

/-- The condition at which `evaluate` returns: every job has been `put`
and `await job_queue.join()` has completed (unfinished-task counter zero). -/
def drained (st : PipelineState) : Bool :=
  st.pending.isEmpty && st.unfinished == 0

/-! ## One worker iteration with its `finally` (`Logic._evaluator`,
`__main__.py` lines 111-125)

The body of the worker loop after the `get`: `try:` score and persist,
`finally: job_queue.task_done()`.  Scoring and persistence are arbitrary
fallible calls here; the state records the persisted rows and the number
of `task_done` acknowledgements delivered to the queue. -/

/-- The state one worker iteration can touch. -/
structure WorkerState where
  saved : List JobEvaluation
  tasks_done : Nat
deriving DecidableEq, Repr

/-- A `try`/`finally` block: run the body, then run the `finally` clause
on the resulting state whether the body succeeded or raised. -/
def tryFinally {ε σ α : Type} (body : σ → Except ε α × σ) (fin : σ → σ)
    (st : σ) : Except ε α × σ :=
  ((body st).1, fin (body st).2)

/-- An exception escaping the worker body: from the scoring call or from
the persistence call. -/
inductive WorkerError where
  | scoring (e : EvaluatorError)
  | db (e : DbError)
deriving DecidableEq, Repr

/-- The `try` body of `Logic._evaluator` (`__main__.py` lines 114-122):
`evaluation = await evaluate_job(...)`, then persist it inside a
transaction.  A raise from either call leaves the state as it was. -/
def evaluator_body (score : JobDetail → Except EvaluatorError JobEvaluation)
    (persist : List JobEvaluation → JobEvaluation → Except DbError (List JobEvaluation))
    (job : JobDetail) (st : WorkerState) : Except WorkerError Unit × WorkerState :=
  match score job with
  | .error e => (.error (.scoring e), st)
  | .ok ev =>
    match persist st.saved ev with
    | .error e => (.error (.db e), st)
    | .ok saved' => (.ok (), { st with saved := saved' })

/-- One full iteration of the worker loop after the `get`
(`__main__.py` lines 114-125): the `try` body wrapped by the
`finally: job_queue.task_done()`. -/
def evaluator_iteration (score : JobDetail → Except EvaluatorError JobEvaluation)
    (persist : List JobEvaluation → JobEvaluation → Except DbError (List JobEvaluation))
    (job : JobDetail) (st : WorkerState) : Except WorkerError Unit × WorkerState :=
  tryFinally (evaluator_body score persist job)
    (fun st => { st with tasks_done := st.tasks_done + 1 }) st

/-! ## Concrete fixtures

Small concrete records used to evaluate the definitions on explicit
inputs (witnesses and counterexamples). -/

/-- A concrete `RawJobSummary` keyed by `id`. -/
def mkSummary (id : String) : RawJobSummary :=
  { security_id := id, boss_name := "b", boss_title := "t", encrypt_job_id := id,
    job_name := "n", salary_desc := "s", job_labels := [], skills := ["python"],
    job_experience := "e", job_degree := "d", city_name := "city",
    area_district := "area", business_district := "biz", encrypt_brand_id := "brand",
    brand_name := "bn", brand_stage_name := "bs", brand_industry := "bi",
    brand_scale_name := "bsc" }

/-- A concrete `RawJobInfo` keyed by `id`. -/
def mkJobInfo (id : String) : RawJobInfo :=
  { encrypt_id := id, job_name := "n", position_name := "p",
    location_name := "l", experience_name := "e", degree_name := "d",
    salary_desc := "s", post_description := "pd", address := "a",
    show_skills := ["go"], job_status_desc := "open" }

/-- A concrete `RawBossInfo`. -/
def mkBossInfo : RawBossInfo :=
  { name := "bn", title := "bt", active_time_desc := "刚刚活跃", brand_name := "br" }

/-- A concrete `RawBrandComInfo`. -/
def mkBrandComInfo : RawBrandComInfo :=
  { encrypt_brand_id := "brand", brand_name := "bn", stage_name := "st",
    scale_name := "sc", industry_name := "in", introduce := "intro",
    labels := ["x"], customer_brand_name := "cb", customer_brand_stage_name := "cbs" }

/-- A concrete `RawJobDetail` keyed by `id`. -/
def mkDetail (id : String) : RawJobDetail :=
  { security_id := id, job_info := mkJobInfo id, boss_info := mkBossInfo,
    brand_com_info := mkBrandComInfo }

/-- A concrete persisted `JobDetail` row keyed by `id`, created at `t`. -/
def mkJob (id : String) (t : Nat) : JobDetail :=
  { company_encrypt_brand_id := "brand", company_brand_name := "bn",
    company_stage_name := "st", company_scale_name := "sc",
    company_industry_name := "in", company_introduce := "intro",
    job_encrypt_id := id, job_name := "n", job_city_name := "city",
    job_area_district := "area", job_business_district := "biz",
    job_address := "a", job_experience_name := "e", job_degree := "d",
    job_salary_description := "s", job_description := "pd", created_at := t }

/-- A concrete `JobEvaluation` row keyed by `id` (all dimensions defaulted). -/
def mkEval (id : String) : JobEvaluation :=
  { job_encrypt_id := id,
    technology_match_score := 0, technology_match_reason := "",
    project_experience_match_score := 0, project_experience_match_reason := "",
    industry_experience_match_score := 0, industry_experience_match_reason := "",
    level_match_score := 0, level_match_reason := "",
    growth_potential_score := 0, growth_potential_reason := "",
    technical_depth_potential_score := 0, technical_depth_potential_reason := "" }

/-- A concrete `Cookie` row keyed by `n`. -/
def mkCookie (n : String) : Cookie :=
  { name := n, value := "v", domain := none, path := none, expires := none,
    http_only := none, secure := none, same_site := none, partition_key := none }

/-- An `Evaluation` with every optional key missing. -/
def blankEvaluation : Evaluation :=
  { technology_match_score := none, technology_match_reason := none,
    project_experience_match_score := none, project_experience_match_reason := none,
    industry_experience_match_score := none, industry_experience_match_reason := none,
    level_match_score := none, level_match_reason := none,
    growth_potential_score := none, growth_potential_reason := none,
    technical_depth_potential_score := none, technical_depth_potential_reason := none }

/-- A network schedule for `seek_jobs` in which the list page delivers two
summaries and each click's detail response arrives before the loop reads
`job_detail_list[-1]`. -/
def exSchedule : Nat → List NetEvent
  | 0 => [.listResp [mkSummary "job-A", mkSummary "job-B"], .detailResp (mkDetail "job-A")]
  | 1 => [.detailResp (mkDetail "job-B")]
  | _ => []

/-- The state `seek_jobs` reaches after two iterations under `exSchedule`
with `count = 1` and a filter that accepts everything. -/
def exSeekFinal : SeekState :=
  { summaries := [("job-A", mkSummary "job-A"), ("job-B", mkSummary "job-B")],
    details := [mkDetail "job-A", mkDetail "job-B"],
    ix := 2, queried := 0,
    yielded := [build_job_detail 0 (mkSummary "job-A") (mkDetail "job-A"),
                build_job_detail 1 (mkSummary "job-B") (mkDetail "job-B")] }

/-- The responses delivered during one iteration in which the click's own
detail response arrives (after a list-page response) before the read. -/
def exC2Events : List NetEvent :=
  [.listResp [mkSummary "job-A"], .detailResp (mkDetail "job-A")]

/-- A batch of three distinct jobs for the evaluation pipeline. -/
def exBatch : List JobDetail :=
  [mkJob "a" 1, mkJob "b" 2, mkJob "c" 3]

/-- A scoring capability whose stream always validates. -/
def exLlm : JobDetail → Option Evaluation :=
  fun _ => some blankEvaluation

/-- A two-worker interleaving that drains `exBatch`. -/
def exActs : List PAction :=
  [.put, .put, .get 0, .get 1, .finish 0, .put, .get 0, .finish 1, .finish 0]

/-- The pipeline state after `exActs` on `exBatch` with concurrency 2. -/
def exPipelineFinal : PipelineState :=
  { pending := [], queue := [], running := [none, none],
    saved := [mkEval "a", mkEval "b", mkEval "c"], unfinished := 0 }

/-- The drained state of a one-job, one-worker run whose scoring stream
never validates: the item was acknowledged but nothing was persisted. -/
def exFailFinal : PipelineState :=
  { pending := [], queue := [], running := [none], saved := [], unfinished := 0 }

/-- A record is a merged record built from a detail accepted by the
filter (what the discovery loop's filtering guarantees of each yield). -/
def is_filtered_build (filterF : RawJobDetail → Bool) (j : JobDetail) : Prop :=
  ∃ now js jd, filterF jd = true ∧ j = build_job_detail now js jd

/-- The pipeline invariant: some list `done` of already-scored jobs
completes the jobs still pending/queued/in-flight to exactly the batch
(as a multiset), the persisted keys are exactly the keys of `done`, and
the queue's unfinished-task counter counts the queued plus in-flight
jobs. -/
def PipeInv (batch : List JobDetail) (st : PipelineState) : Prop :=
  ∃ done : List JobDetail,
    (↑st.pending + ↑st.queue + ↑(st.running.filterMap id) + ↑done :
        Multiset JobDetail) = ↑batch
    ∧ st.saved.map (fun e => e.job_encrypt_id) = done.map (fun j => j.job_encrypt_id)
    ∧ st.unfinished = st.queue.length + (st.running.filterMap id).length

deriving instance DecidableEq for Except

/-! ## Theorems -/

/-- Inserting rows whose keys are fresh and pairwise distinct succeeds and
appends them in order. -/
theorem insertAll_ok (S : List Cookie) :
    ∀ acc : List Cookie,
      (∀ c ∈ S, ∀ r ∈ acc, r.key ≠ c.key) →
      S.Pairwise (fun a b => a.key ≠ b.key) →
      S.foldlM Cookie.insertRow acc = .ok (acc ++ S) := by
  induction S with
  | nil => intro acc _ _; simp only [List.append_nil]; rfl
  | cons c S ih =>
    intro acc hdisj hpw
    have hins : Cookie.insertRow acc c = .ok (acc ++ [c]) := by
      unfold Cookie.insertRow
      rw [if_neg]
      simp only [List.any_eq_true, decide_eq_true_eq, not_exists, not_and]
      intro r hr
      exact hdisj c (List.mem_cons_self c S) r hr
    have hrest : S.foldlM Cookie.insertRow (acc ++ [c]) = .ok ((acc ++ [c]) ++ S) := by
      apply ih
      · intro c' hc' r hr
        rcases List.mem_append.mp hr with hr | hr
        · exact hdisj c' (List.mem_cons_of_mem c hc') r hr
        · rcases List.mem_singleton.mp hr with rfl
          exact (List.pairwise_cons.mp hpw).1 c' hc'
      · exact (List.pairwise_cons.mp hpw).2
    calc (c :: S).foldlM Cookie.insertRow acc
        = Cookie.insertRow acc c >>= fun acc' => S.foldlM Cookie.insertRow acc' := by
          simp [List.foldlM_cons]
      _ = .ok (acc ++ c :: S) := by rw [hins]; simpa using hrest

/-- C7: for any set of credentials pairwise distinct on the key
`(name, domain, path)`, `overwrite_all(S)` followed by `fetch_all()`
returns exactly `S` (hence a collection equal to `S` as a set), whatever
the store's prior contents were. -/
theorem cookie_overwrite_fetch_roundtrip (prior S : List Cookie)
    (hkeys : S.Pairwise (fun a b => a.key ≠ b.key)) :
    Cookie.overwrite_all prior S = .ok S ∧ Cookie.fetch_all S = S := by
  constructor
  · unfold Cookie.overwrite_all
    simpa using insertAll_ok S [] (by simp) hkeys
  · rfl

/-- Witness for C7: replacing a one-cookie store with two fresh cookies
round-trips. -/
theorem cookie_overwrite_fetch_roundtrip_witness :
    Cookie.overwrite_all [mkCookie "old"] [mkCookie "a", mkCookie "b"] =
      .ok [mkCookie "a", mkCookie "b"]
    ∧ Cookie.fetch_all [mkCookie "a", mkCookie "b"] = [mkCookie "a", mkCookie "b"] :=
  cookie_overwrite_fetch_roundtrip [mkCookie "old"] [mkCookie "a", mkCookie "b"]
    (by decide)

/-- C10: the default job filter accepts every job: it intersects the set
of single characters of `active_time_desc` with the one-element set
containing the three-character string `"周月年"`, and a one-character
string never equals a three-character string, so the intersection is
always empty and `default_job_filter` always returns `True`. -/
theorem default_job_filter_always_true (job : RawJobDetail) :
    default_job_filter job = true := by
  have h : (charSingletons job.boss_info.active_time_desc).inter ["周月年"] = [] := by
    rw [List.eq_nil_iff_forall_not_mem]
    intro x hx
    simp only [List.inter, List.mem_filter, List.elem_eq_mem,
      decide_eq_true_eq] at hx
    obtain ⟨hx1, hx2⟩ := hx
    obtain ⟨c, _, hc⟩ := List.mem_map.mp hx1
    have hx2' : x = "周月年" := by simpa using hx2
    subst hx2'
    have hdata : ([c] : List Char) = "周月年".data := congrArg String.data hc
    have hlen : ([c] : List Char).length = ("周月年".data).length :=
      congrArg List.length hdata
    have h3 : ("周月年".data).length = 3 := by decide
    simp [h3] at hlen
  simp [default_job_filter, h]

/-- C9: when the page observed after navigating to the login URL is the
base URL, `login` returns the input credential sequence unchanged and the
interactive flow never starts: no visible browser is opened and no login
wait occurs. -/
theorem login_cookie_restore (base_url : String) (headless allow : Bool)
    (env : LoginEnv) (cookies : List Cookie)
    (h : env.page_url_after_goto = base_url) :
    login base_url headless allow env cookies =
      .ok { cookies := cookies, opened_visible_browser := false,
            waited_for_login := false } := by
  simp [login, h]

/-- Witness for C9 at a concrete environment and cookie set. -/
theorem login_cookie_restore_witness :
    login "https://www.zhipin.com" true true
      { page_url_after_goto := "https://www.zhipin.com", interactive_ok := false,
        interactive_cookies := [] } [mkCookie "wt"] =
      .ok { cookies := [mkCookie "wt"], opened_visible_browser := false,
            waited_for_login := false } :=
  login_cookie_restore "https://www.zhipin.com" true true
    { page_url_after_goto := "https://www.zhipin.com", interactive_ok := false,
      interactive_cookies := [] } [mkCookie "wt"] rfl

/-- C6: every worker iteration acknowledges the dequeued item — the
`finally` block runs `task_done` whether the body returns, the scoring
call raises, or the persistence call raises. -/
theorem evaluator_iteration_acknowledges
    (score : JobDetail → Except EvaluatorError JobEvaluation)
    (persist : List JobEvaluation → JobEvaluation → Except DbError (List JobEvaluation))
    (job : JobDetail) (st : WorkerState) :
    ((evaluator_iteration score persist job st).2).tasks_done = st.tasks_done + 1 := by
  unfold evaluator_iteration tryFinally evaluator_body
  cases hs : score job with
  | error e => rfl
  | ok ev =>
    cases hp : persist st.saved ev with
    | error e => simp [hp]
    | ok saved' => simp [hp]

/-- C4 counterexample: the merged record's fields are not the union of the
fields of the two parts — at a concrete summary/detail pair, the summary's
`skills` field (among others) appears in no field of the merged record. -/
theorem build_job_detail_not_union_cex :
    ¬ (∀ fv ∈ ((mkSummary "cex").fields ++ (mkDetail "cex").fields),
        fv.2 ∈ (build_job_detail 0 (mkSummary "cex") (mkDetail "cex")).fieldVals) := by
  intro h
  have hskills := h ("skills", .ls ["python"])
    (by simp [RawJobSummary.fields, RawJobDetail.fields, mkSummary, mkDetail])
  exact absurd hskills
    (by simp [JobDetail.fieldVals, build_job_detail, mkSummary, mkDetail,
          mkJobInfo, mkBossInfo, mkBrandComInfo])

set_option maxHeartbeats 1600000 in
/-- C4 amended: `_build_job_detail` carries over exactly three summary
fields (`city_name`, `area_district`, `business_district`) and thirteen
detail fields; every merged field value comes from one of the two parts,
but the parts' remaining fields are dropped, in either arrival order
(the merge is a pure function of the two parts). -/
theorem build_job_detail_fields_characterization (now : Nat)
    (s : RawJobSummary) (d : RawJobDetail) :
    (build_job_detail now s d).fieldVals =
      [.s d.brand_com_info.encrypt_brand_id, .s d.brand_com_info.brand_name,
       .s d.brand_com_info.stage_name, .s d.brand_com_info.scale_name,
       .s d.brand_com_info.industry_name, .s d.brand_com_info.introduce,
       .s d.job_info.encrypt_id, .s d.job_info.job_name,
       .s s.city_name, .s s.area_district, .s s.business_district,
       .s d.job_info.address, .s d.job_info.experience_name,
       .s d.job_info.degree_name, .s d.job_info.salary_desc,
       .s d.job_info.post_description]
    ∧ ∀ v ∈ (build_job_detail now s d).fieldVals,
        v ∈ ((s.fields ++ d.fields).map Prod.snd) := by
  refine ⟨rfl, ?_⟩
  intro v hv
  simp only [JobDetail.fieldVals, build_job_detail, List.mem_cons,
    List.not_mem_nil, or_false] at hv
  simp only [RawJobSummary.fields, RawJobDetail.fields, List.map_append,
    List.map_cons, List.map_nil, List.mem_append, List.mem_cons,
    List.not_mem_nil, or_false]
  rcases hv with rfl|rfl|rfl|rfl|rfl|rfl|rfl|rfl|rfl|rfl|rfl|rfl|rfl|rfl|rfl|rfl <;>
    tauto

/-- The `WHERE right-key IS NULL` clause on the LEFT OUTER JOIN keeps
exactly the jobs with no matching evaluation. -/
theorem leftOuterJoin_where_null (jobs : List JobDetail) (evals : List JobEvaluation) :
    ((leftOuterJoin jobs evals).filter (fun p => p.2.isNone)).map Prod.fst =
      jobs.filter (fun j => !(evals.any (fun e => e.job_encrypt_id == j.job_encrypt_id))) := by
  induction jobs with
  | nil => rfl
  | cons j js ih =>
    have hstep : leftOuterJoin (j :: js) evals =
        (match evals.filter (fun e => e.job_encrypt_id == j.job_encrypt_id) with
         | [] => [(j, none)]
         | ms => ms.map (fun e => (j, some e))) ++ leftOuterJoin js evals := by
      simp [leftOuterJoin]
    rw [hstep, List.filter_append, List.map_append, ih]
    cases hm : evals.filter (fun e => e.job_encrypt_id == j.job_encrypt_id) with
    | nil =>
      have hany : evals.any (fun e => e.job_encrypt_id == j.job_encrypt_id) = false := by
        rw [List.any_eq_false]
        exact List.filter_eq_nil_iff.mp hm
      simp [List.filter_cons, hany]
    | cons e ms =>
      have he : e ∈ evals.filter (fun e => e.job_encrypt_id == j.job_encrypt_id) := by
        rw [hm]; exact List.mem_cons_self e ms
      have hany : evals.any (fun e => e.job_encrypt_id == j.job_encrypt_id) = true := by
        rw [List.any_eq_true]
        exact ⟨e, (List.mem_filter.mp he).1, (List.mem_filter.mp he).2⟩
      have hdrop : ((e :: ms).map (fun e => (j, some e))).filter
          (fun p => p.2.isNone) = [] := by
        rw [List.filter_eq_nil_iff]
        intro p hp
        obtain ⟨e', _, rfl⟩ := List.mem_map.mp hp
        simp
      simp [hdrop, List.filter_cons, hany]

/-- C8: the unevaluated-record selection equals the spec's description —
the jobs with no evaluation sharing their `job_encrypt_id` (left-anti-join),
ordered by `created_at` ascending, capped at `limit`; every selected job is
unevaluated, the output is sorted and no longer than `limit`; and on a
store with three records created at 1 < 2 < 3 and one evaluation for the
first, `limit = 2` returns exactly the second-oldest then third-oldest. -/
theorem select_unevaluated_correct :
    (∀ (jobs : List JobDetail) (evals : List JobEvaluation) (limit : Nat),
      select_unevaluated jobs evals limit = select_unevaluated_spec jobs evals limit
      ∧ (∀ j ∈ select_unevaluated jobs evals limit,
          ∀ e ∈ evals, e.job_encrypt_id ≠ j.job_encrypt_id)
      ∧ List.Sorted createdLE (select_unevaluated jobs evals limit)
      ∧ (select_unevaluated jobs evals limit).length ≤ limit)
    ∧ select_unevaluated [mkJob "t3" 3, mkJob "t1" 1, mkJob "t2" 2] [mkEval "t1"] 2 =
        [mkJob "t2" 2, mkJob "t3" 3] := by
  constructor
  · intro jobs evals limit
    have heq : select_unevaluated jobs evals limit =
        select_unevaluated_spec jobs evals limit := by
      unfold select_unevaluated select_unevaluated_spec
      rw [leftOuterJoin_where_null]
    refine ⟨heq, ?_, ?_, ?_⟩
    · intro j hj e he
      rw [heq] at hj
      have h1 : j ∈ orderByCreatedAsc (jobs.filter
          (fun j => !(evals.any (fun e => e.job_encrypt_id == j.job_encrypt_id)))) :=
        (List.take_sublist _ _).subset hj
      have h2 : j ∈ jobs.filter
          (fun j => !(evals.any (fun e => e.job_encrypt_id == j.job_encrypt_id))) :=
        (List.mem_insertionSort createdLE).mp h1
      have h3 := List.of_mem_filter h2
      simp only [Bool.not_eq_true', List.any_eq_false] at h3
      simpa using h3 e he
    · exact List.Pairwise.sublist (List.take_sublist _ _)
        (List.sorted_insertionSort createdLE _)
    · exact List.length_take_le _ _
  · decide

/-- Delivering responses never touches the cursor, the yield counter or
the yielded records, and appends exactly the delivered details to
`job_detail_list`. -/
theorem foldl_deliver_fields (events : List NetEvent) (st : SeekState) :
    (events.foldl deliver st).ix = st.ix
    ∧ (events.foldl deliver st).queried = st.queried
    ∧ (events.foldl deliver st).yielded = st.yielded
    ∧ (events.foldl deliver st).details = st.details ++ detailEvents events := by
  induction events generalizing st with
  | nil => simp [detailEvents]
  | cons e es ih =>
    cases e with
    | listResp batch =>
      simpa [deliver, detailEvents] using ih { st with summaries := batch.foldl upsertSummary st.summaries }
    | detailResp d =>
      simpa [deliver, detailEvents] using ih { st with details := st.details ++ [d] }

/-- C2 counterexample: a network timing in which the click's detail
response has not yet arrived when `job_detail_list[-1]` is read is
admissible, and there the engine does not wait — it has already advanced
past the click and the read raises `IndexError` on the empty list. -/
theorem seek_read_before_detail_cex :
    seek_jobs_loop (fun _ => true) (fun _ => []) 1 1 0 initSeekState =
      .error .detailIndexError := by
  decide

/-- C2 amended: the engine advances the cursor immediately after every
click, without waiting for the detail response, and then reads whichever
detail response arrived most recently.  Only under the single-flight
timing assumption — the detail responses delivered before iteration `i`'s
read are exactly the responses of clicks `0..i-1` in order plus the
current click's response `clickDetail i` — is the read the current
click's detail; then, when it passes the filter and a summary matches,
the merged record is built from exactly that detail, with the cursor
already advanced by one. -/
theorem seek_single_flight_pairing (filterF : RawJobDetail → Bool)
    (now i : Nat) (events : List NetEvent) (st : SeekState)
    (clickDetail : Nat → RawJobDetail) (js : RawJobSummary)
    (hdet : detailEvents events = [clickDetail i])
    (hst : st.details = (List.range i).map clickDetail)
    (hfilter : filterF (clickDetail i) = true)
    (hsum : lookupSummary ((events.foldl deliver st).summaries)
        (clickDetail i).job_info.encrypt_id = some js) :
    ((events.foldl deliver st).details).getLast? = some (clickDetail i)
    ∧ seekIteration filterF now events st = .ok
        { summaries := (events.foldl deliver st).summaries
          details := (List.range (i + 1)).map clickDetail
          ix := st.ix + 1
          queried := st.queried
          yielded := st.yielded ++ [build_job_detail now js (clickDetail i)] } := by
  obtain ⟨hix, hq, hy, hd⟩ := foldl_deliver_fields events st
  rw [hst, hdet] at hd
  have hlast : ((events.foldl deliver st).details).getLast? = some (clickDetail i) := by
    rw [hd]
    exact List.getLast?_concat _
  have hdetails : (events.foldl deliver st).details =
      (List.range (i + 1)).map clickDetail := by
    rw [hd, List.range_succ, List.map_append]
    rfl
  refine ⟨hlast, ?_⟩
  unfold seekIteration seekRead
  simp only [hlast, hfilter, hsum, if_true]
  simp only [Except.ok.injEq, SeekState.mk.injEq]
  exact ⟨trivial, hdetails, by rw [hix], hq, by rw [hy]⟩

/-- Witness for C2 amended, at the first click with its own detail
response delivered between the click and the read. -/
theorem seek_single_flight_pairing_witness :
    ((exC2Events.foldl deliver initSeekState).details).getLast? =
      some (mkDetail "job-A")
    ∧ seekIteration (fun _ => true) 0 exC2Events initSeekState = .ok
        { summaries := (exC2Events.foldl deliver initSeekState).summaries
          details := (List.range 1).map (fun _ => mkDetail "job-A")
          ix := 1
          queried := 0
          yielded := [build_job_detail 0 (mkSummary "job-A") (mkDetail "job-A")] } :=
  seek_single_flight_pairing (fun _ => true) 0 0 exC2Events initSeekState
    (fun _ => mkDetail "job-A") (mkSummary "job-A") rfl rfl rfl (by decide)

/-- C1 (showing the bug): `queried_count` is never incremented, so the
loop guard `queried_count < count` never becomes false: with
`count = 1` and two suitable jobs, two iterations yield two records —
more than the requested count — and the counter still reads zero. -/
theorem seek_jobs_count_not_enforced :
    seek_jobs_loop (fun _ => true) exSchedule 1 2 0 initSeekState = .ok exSeekFinal
    ∧ exSeekFinal.queried = 0
    ∧ 1 < exSeekFinal.yielded.length := by
  refine ⟨by decide, rfl, by decide⟩

/-- Every record the read/filter/yield tail adds passed the filter. -/
theorem seekRead_yielded (filterF : RawJobDetail → Bool) (now : Nat)
    (st st' : SeekState) (h : seekRead filterF now st = .ok st') :
    ∀ j ∈ st'.yielded, j ∈ st.yielded ∨ is_filtered_build filterF j := by
  unfold seekRead at h
  split at h
  · cases h
  · rename_i jd _
    split at h
    · rename_i hf
      split at h
      · cases h
      · rename_i js _
        cases h
        intro j hj
        rcases List.mem_append.mp hj with hj | hj
        · exact .inl hj
        · rcases List.mem_singleton.mp hj with rfl
          exact .inr ⟨now, js, jd, hf, rfl⟩
    · cases h
      intro j hj
      exact .inl hj

/-- Every record one loop iteration adds passed the filter. -/
theorem seekIteration_yielded (filterF : RawJobDetail → Bool) (now : Nat)
    (events : List NetEvent) (st st' : SeekState)
    (h : seekIteration filterF now events st = .ok st') :
    ∀ j ∈ st'.yielded, j ∈ st.yielded ∨ is_filtered_build filterF j := by
  unfold seekIteration at h
  intro j hj
  have hy := (foldl_deliver_fields events st).2.2.1
  rcases seekRead_yielded filterF now _ st' h j hj with hj' | hj'
  · exact .inl (by simpa [hy] using hj')
  · exact .inr hj'

/-- Every record the whole loop adds passed the filter. -/
theorem seek_jobs_loop_yielded (filterF : RawJobDetail → Bool)
    (schedule : Nat → List NetEvent) (count : Nat) :
    ∀ (fuel i : Nat) (st st' : SeekState),
      seek_jobs_loop filterF schedule count fuel i st = .ok st' →
      ∀ j ∈ st'.yielded, j ∈ st.yielded ∨ is_filtered_build filterF j := by
  intro fuel
  induction fuel with
  | zero =>
    intro i st st' h
    cases h
    exact fun j hj => .inl hj
  | succ fuel ih =>
    intro i st st' h
    unfold seek_jobs_loop at h
    by_cases hguard : st.queried < count
    · rw [if_pos hguard] at h
      cases hit : seekIteration filterF i (schedule i) st with
      | error e => rw [hit] at h; cases h
      | ok st'' =>
        rw [hit] at h
        intro j hj
        rcases ih (i + 1) st'' st' h j hj with hj' | hj'
        · exact seekIteration_yielded filterF i (schedule i) st st'' hit j hj'
        · exact .inr hj'
    · rw [if_neg hguard] at h
      cases h
      exact fun j hj => .inl hj

/-- C5: every record yielded by a discovery run passed the caller-supplied
filter: it is a merged record built from a detail on which `filter_func`
returned `True`. -/
theorem seek_jobs_yields_only_filtered (filterF : RawJobDetail → Bool)
    (schedule : Nat → List NetEvent) (count fuel i : Nat) (st' : SeekState)
    (h : seek_jobs_loop filterF schedule count fuel i initSeekState = .ok st') :
    ∀ j ∈ st'.yielded,
      ∃ now js jd, filterF jd = true ∧ j = build_job_detail now js jd := by
  intro j hj
  rcases seek_jobs_loop_yielded filterF schedule count fuel i initSeekState st' h j hj
    with h0 | h1
  · simp [initSeekState] at h0
  · exact h1

/-- Witness for C5: the first record of the two-iteration run under
`exSchedule` is a filtered merged record. -/
theorem seek_jobs_yields_only_filtered_witness :
    ∃ now js jd, (fun _ => true : RawJobDetail → Bool) jd = true
      ∧ build_job_detail 0 (mkSummary "job-A") (mkDetail "job-A") =
          build_job_detail now js jd :=
  seek_jobs_yields_only_filtered (fun _ => true) exSchedule 1 2 0 exSeekFinal
    (by decide) (build_job_detail 0 (mkSummary "job-A") (mkDetail "job-A"))
    (by decide)

/-- Writing `some j` into an idle worker slot adds `j` to the in-flight
multiset. -/
theorem filterMap_set_insert {α : Type} (l : List (Option α)) :
    ∀ (w : Nat) (j : α), l.get? w = some none →
      (↑((l.set w (some j)).filterMap id) : Multiset α) = j ::ₘ ↑(l.filterMap id) := by
  induction l with
  | nil => intro w j h; simp at h
  | cons o l ih =>
    intro w j h
    cases w with
    | zero =>
      have ho : o = none := by simpa using h
      subst ho
      exact (Multiset.cons_coe _ _).symm
    | succ w =>
      have h' : l.get? w = some none := by simpa using h
      cases o with
      | none =>
        exact ih w j h'
      | some a =>
        have hrec := ih w j h'
        show (↑(a :: (l.set w (some j)).filterMap id) : Multiset α) =
          j ::ₘ ↑(a :: l.filterMap id)
        rw [← Multiset.cons_coe, ← Multiset.cons_coe, hrec, Multiset.cons_swap]

/-- Clearing a busy worker slot removes its job from the in-flight
multiset. -/
theorem filterMap_set_remove {α : Type} (l : List (Option α)) :
    ∀ (w : Nat) (j : α), l.get? w = some (some j) →
      (↑(l.filterMap id) : Multiset α) = j ::ₘ ↑((l.set w none).filterMap id) := by
  induction l with
  | nil => intro w j h; simp at h
  | cons o l ih =>
    intro w j h
    cases w with
    | zero =>
      have ho : o = some j := by simpa using h
      subst ho
      exact (Multiset.cons_coe _ _).symm
    | succ w =>
      have h' : l.get? w = some (some j) := by simpa using h
      cases o with
      | none =>
        exact ih w j h'
      | some a =>
        have hrec := ih w j h'
        show (↑(a :: l.filterMap id) : Multiset α) =
          j ::ₘ ↑(a :: (l.set w none).filterMap id)
        rw [← Multiset.cons_coe, ← Multiset.cons_coe, hrec, Multiset.cons_swap]

/-- A successful `evaluate_job` keys the evaluation by the job's own id. -/
theorem evaluate_job_ok_key (o : Option Evaluation) (j : JobDetail)
    (ev : JobEvaluation) (h : evaluate_job o j = .ok ev) :
    ev.job_encrypt_id = j.job_encrypt_id := by
  cases o with
  | none => simp [evaluate_job] at h
  | some e =>
    simp only [evaluate_job, Except.ok.injEq] at h
    rw [← h]

/-- `evaluate_job` raises only when the stream never validated. -/
theorem evaluate_job_error_none (o : Option Evaluation) (j : JobDetail)
    (e : EvaluatorError) (h : evaluate_job o j = .error e) : o = none := by
  cases o with
  | none => rfl
  | some ev => simp [evaluate_job] at h

/-- The initial pipeline state satisfies the invariant. -/
theorem pinit_inv (batch : List JobDetail) (C : Nat) :
    PipeInv batch (pinit batch C) := by
  have hrep : (List.replicate C (none : Option JobDetail)).filterMap id = [] := by
    induction C with
    | zero => rfl
    | succ n ih => simp [List.replicate_succ, ih]
  refine ⟨[], ?_, rfl, ?_⟩
  · simp [pinit, hrep]
  · simp [pinit, hrep]

/-- Every enabled pipeline step preserves the invariant, provided the
batch keys are distinct and scoring validates on every batch item. -/
theorem pstep_preserves_inv (C : Nat) (llm : JobDetail → Option Evaluation)
    (batch : List JobDetail)
    (hids : (batch.map (fun j => j.job_encrypt_id)).Nodup)
    (hok : ∀ j ∈ batch, (llm j).isSome = true)
    (st st' : PipelineState) (a : PAction)
    (hinv : PipeInv batch st) (hstep : pstep C llm st a = some st') :
    PipeInv batch st' := by
  obtain ⟨done, hms, hkeys, hunf⟩ := hinv
  cases a with
  | put =>
    simp only [pstep] at hstep
    split at hstep
    · cases hstep
    · rename_i j rest hp
      split at hstep
      · cases hstep
        refine ⟨done, ?_, hkeys, ?_⟩
        · rw [hp] at hms
          rw [← hms]
          simp only [← Multiset.coe_add, ← Multiset.cons_coe, ← Multiset.singleton_add,
            Multiset.coe_nil]
          abel
        · rw [hunf, List.length_append]
          simp
          omega
      · cases hstep
  | get w =>
    simp only [pstep] at hstep
    split at hstep
    · cases hstep
    · rename_i j rest hq
      split at hstep
      · rename_i hw
        cases hstep
        have hins := filterMap_set_insert st.running w j hw
        have hlen : ((st.running.set w (some j)).filterMap id).length
            = (st.running.filterMap id).length + 1 := by
          have hc := congrArg Multiset.card hins
          simpa [Multiset.coe_card] using hc
        refine ⟨done, ?_, hkeys, ?_⟩
        · rw [hq] at hms
          rw [← hms, hins]
          simp only [← Multiset.coe_add, ← Multiset.cons_coe, ← Multiset.singleton_add,
            Multiset.coe_nil]
          abel
        · rw [hq] at hunf
          rw [hunf, hlen]
          simp [List.length_cons]
          omega
      · cases hstep
  | finish w =>
    simp only [pstep] at hstep
    split at hstep
    · rename_i j hw
      have hjr : j ∈ st.running.filterMap id := by
        rw [List.mem_filterMap]
        exact ⟨some j, List.get?_mem hw, rfl⟩
      have hjb : j ∈ batch := by
        have hmem : j ∈ (↑batch : Multiset JobDetail) := by
          rw [← hms]
          simp only [Multiset.mem_add, Multiset.mem_coe]
          exact .inl (.inr hjr)
        simpa [Multiset.mem_coe] using hmem
      split at hstep
      · rename_i ev hev
        cases hstep
        have hkey : ev.job_encrypt_id = j.job_encrypt_id := evaluate_job_ok_key _ _ _ hev
        have hrem := filterMap_set_remove st.running w j hw
        have hlen : (st.running.filterMap id).length
            = ((st.running.set w none).filterMap id).length + 1 := by
          have hc := congrArg Multiset.card hrem
          simpa [Multiset.coe_card] using hc
        have hfresh : j.job_encrypt_id ∉ done.map (fun x => x.job_encrypt_id) := by
          intro hmemdone
          have hnd : (Multiset.map (fun x => x.job_encrypt_id)
              (↑batch : Multiset JobDetail)).Nodup := by
            rw [Multiset.map_coe]
            exact Multiset.coe_nodup.mpr hids
          have hle1 := Multiset.nodup_iff_count_le_one.mp hnd j.job_encrypt_id
          have h2 : 2 ≤ Multiset.count j.job_encrypt_id
              (Multiset.map (fun x => x.job_encrypt_id) (↑batch : Multiset JobDetail)) := by
            rw [← hms]
            simp only [Multiset.map_add, Multiset.count_add]
            have c1 : 1 ≤ Multiset.count j.job_encrypt_id
                (Multiset.map (fun x => x.job_encrypt_id)
                  (↑(st.running.filterMap id) : Multiset JobDetail)) := by
              rw [Multiset.one_le_count_iff_mem, Multiset.mem_map]
              exact ⟨j, Multiset.mem_coe.mpr hjr, rfl⟩
            have c2 : 1 ≤ Multiset.count j.job_encrypt_id
                (Multiset.map (fun x => x.job_encrypt_id)
                  (↑done : Multiset JobDetail)) := by
              rw [Multiset.one_le_count_iff_mem, Multiset.map_coe, Multiset.mem_coe]
              exact hmemdone
            omega
          omega
        have hnotany : st.saved.any
            (fun r => r.job_encrypt_id == ev.job_encrypt_id) = false := by
          rw [List.any_eq_false]
          intro r hr
          simp only [beq_iff_eq]
          intro hre
          apply hfresh
          have hmm : r.job_encrypt_id ∈ st.saved.map (fun e => e.job_encrypt_id) :=
            List.mem_map_of_mem _ hr
          rw [hkeys] at hmm
          rw [← hkey, ← hre]
          exact hmm
        have hupsert : upsertEval st.saved ev = st.saved ++ [ev] := by
          simp [upsertEval, hnotany]
        refine ⟨done ++ [j], ?_, ?_, ?_⟩
        · rw [← hms, hrem]
          simp only [← Multiset.coe_add, ← Multiset.cons_coe, ← Multiset.singleton_add,
            Multiset.coe_nil]
          abel
        · rw [hupsert]
          simp only [List.map_append, List.map_cons, List.map_nil, hkeys, hkey]
        · show st.unfinished - 1 =
            st.queue.length + ((st.running.set w none).filterMap id).length
          rw [hunf, hlen]
          omega
      · rename_i e hev
        exfalso
        have hnone := evaluate_job_error_none _ _ _ hev
        have hsome := hok j hjb
        rw [hnone] at hsome
        simp at hsome
    · cases hstep

/-- Running any action schedule preserves the invariant. -/
theorem prun_preserves_inv (C : Nat) (llm : JobDetail → Option Evaluation)
    (batch : List JobDetail)
    (hids : (batch.map (fun j => j.job_encrypt_id)).Nodup)
    (hok : ∀ j ∈ batch, (llm j).isSome = true) :
    ∀ (acts : List PAction) (st st' : PipelineState),
      PipeInv batch st → prun C llm acts st = some st' → PipeInv batch st' := by
  intro acts
  induction acts with
  | nil =>
    intro st st' hinv h
    cases h
    exact hinv
  | cons a acts ih =>
    intro st st' hinv h
    unfold prun at h
    cases hs : pstep C llm st a with
    | none => rw [hs] at h; cases h
    | some st'' =>
      rw [hs] at h
      exact ih st'' st'
        (pstep_preserves_inv C llm batch hids hok st st'' a hinv hs) h

/-- C3 counterexample: the completeness claim is not unconditional — with
a batch of one record, concurrency one (`1 ≤ C ≤ N`), and a scoring
capability that never produces a validated result, the worker's exception
escapes after the `finally` has acknowledged the item, the drain barrier
completes, `evaluate` returns — and zero evaluations exist instead of
one. -/
theorem evaluate_completeness_cex :
    prun 1 (fun _ => none) [.put, .get 0, .finish 0] (pinit [mkJob "a" 1] 1) =
      some exFailFinal
    ∧ drained exFailFinal = true
    ∧ exFailFinal.saved.length ≠ ([mkJob "a" 1] : List JobDetail).length := by
  refine ⟨by decide, rfl, by decide⟩

/-- C3: for a batch of `N` records with distinct ids and concurrency `C`
with `1 ≤ C ≤ N`, whenever `evaluate` returns — i.e. at any reachable
state where every record has been enqueued and the queue's drain barrier
has completed — exactly `N` evaluations are persisted, one per distinct
`itemId` of the batch, with no duplicates (assuming scoring validates on
every batch item; a scoring failure is the known worker-death weak
point). -/
theorem evaluate_completeness (batch : List JobDetail) (C : Nat)
    (llm : JobDetail → Option Evaluation) (acts : List PAction)
    (st' : PipelineState)
    (hC1 : 1 ≤ C) (hC2 : C ≤ batch.length)
    (hids : (batch.map (fun j => j.job_encrypt_id)).Nodup)
    (hok : ∀ j ∈ batch, (llm j).isSome = true)
    (hrun : prun C llm acts (pinit batch C) = some st')
    (hdrained : drained st' = true) :
    st'.saved.length = batch.length
    ∧ (st'.saved.map (fun e => e.job_encrypt_id)).Perm
        (batch.map (fun j => j.job_encrypt_id))
    ∧ (st'.saved.map (fun e => e.job_encrypt_id)).Nodup := by
  obtain ⟨done, hms, hkeys, hunf⟩ :=
    prun_preserves_inv C llm batch hids hok acts (pinit batch C) st'
      (pinit_inv batch C) hrun
  simp only [drained, Bool.and_eq_true, List.isEmpty_iff, beq_iff_eq] at hdrained
  obtain ⟨hpend, hcnt⟩ := hdrained
  have hq0 : st'.queue = [] := by
    rw [hcnt] at hunf
    exact List.length_eq_zero.mp (by omega)
  have hr0 : st'.running.filterMap id = [] := by
    rw [hcnt] at hunf
    exact List.length_eq_zero.mp (by omega)
  rw [hpend, hq0, hr0] at hms
  simp only [Multiset.coe_nil, zero_add] at hms
  have hdone : done.Perm batch := Multiset.coe_eq_coe.mp hms
  have hperm : (st'.saved.map (fun e => e.job_encrypt_id)).Perm
      (batch.map (fun j => j.job_encrypt_id)) := by
    rw [hkeys]
    exact hdone.map _
  refine ⟨?_, hperm, ?_⟩
  · have h1 : st'.saved.length = (st'.saved.map (fun e => e.job_encrypt_id)).length :=
      (List.length_map _ _).symm
    rw [h1, hkeys, List.length_map]
    exact hdone.length_eq
  · exact (hperm.nodup_iff).mpr hids

/-- Witness for C3: three jobs, concurrency two, a concrete draining
interleaving — exactly three evaluations, keyed by the batch ids, no
duplicates. -/
theorem evaluate_completeness_witness :
    exPipelineFinal.saved.length = exBatch.length
    ∧ (exPipelineFinal.saved.map (fun e => e.job_encrypt_id)).Perm
        (exBatch.map (fun j => j.job_encrypt_id))
    ∧ (exPipelineFinal.saved.map (fun e => e.job_encrypt_id)).Nodup :=
  evaluate_completeness exBatch 2 exLlm exActs exPipelineFinal
    (by decide) (by decide) (by decide) (fun _ _ => rfl) (by decide) (by decide)

end AutoZhipin
